import Mathlib

/-!
Verification of the EVM transaction-history service (`src/evm/evm.service.ts`).

The development shallowly embeds the service's pure logic:

* value conversion of `normalizeTransfer` (hex wei → decimal string);
* direction classification (`determineDirection`);
* input validation (`validateAddress`, `validatePageSize`);
* chain/credential resolution (`getAlchemyUrl`);
* the `getTransactionHistory` pipeline (cache lookup, inbound/outbound
  fetch, normalization, merge/dedup/sort/truncate, cache write), with the
  external collaborators (config source, cache store, HTTP fetch) passed
  in as an explicit environment and the observable effects (cache read
  key, issued fetch requests, cache write) returned alongside the result.

Modelling conventions:

* JavaScript arbitrary-precision `BigInt` values are `Nat` (the service
  only handles unsigned on-chain quantities);
* JavaScript `number` values are `Rat` where fractional values matter
  (page sizes) and `Int` where the code only meets integral values
  (the upstream decimal fallback for transfer values);
* ISO-8601 timestamp strings are represented by their epoch-millisecond
  value (an `Int`): `new Date(s).toISOString()` / `new Date(s).getTime()`
  round-trip through the same instant, so ordering and equality of the
  strings coincide with those of the modelled integers;
* fallible JavaScript code (a `throw`) becomes `Except`/`Option`.
-/

/-! ## JavaScript string/number primitives used by the service -/

/-- Truthiness of an optional JS string: `undefined` and `""` are falsy. -/
def jsTruthy (s : Option String) : Bool :=
  match s with
  | none => false
  | some s => s ≠ ""

/-- `String.prototype.toLowerCase()`: characterwise lowering (the service
only meets ASCII addresses and hex strings, where JS and `Char.toLower`
agree).  Defined over the character list so that it reduces by evaluation. -/
def strToLower (s : String) : String :=
  ⟨s.data.map Char.toLower⟩

/-- `String.prototype.padStart(n, c)` on a char list: left-pad to length `n`. -/
def leftPad (c : Char) (n : Nat) (s : List Char) : List Char :=
  List.replicate (n - s.length) c ++ s

/-- Drop the maximal run of trailing `'0'` characters. -/
def rstripZeros (l : List Char) : List Char :=
  (l.reverse.dropWhile (fun c => c == '0')).reverse

/-- One application of `s.replace(/\.?0+$/, "")` (a non-global JS replace):
if the string ends in at least one `'0'`, the leftmost match removes the
whole trailing zero run together with a directly preceding `'.'` when there
is one; otherwise there is no match and the string is unchanged. -/
def stripTrailingZeroRun (s : List Char) : List Char :=
  let r := s.reverse
  if r.head? = some '0' then
    let r' := r.dropWhile (fun c => c == '0')
    let r'' := if r'.head? = some '.' then r'.tail else r'
    r''.reverse
  else s

/-- Decimal digit characters of a natural number, as produced by
`BigInt.prototype.toString()` (`Nat.toDigits 10` is most-significant-first). -/
def natDigits (n : Nat) : List Char :=
  Nat.toDigits 10 n

/-- Value of one hexadecimal digit character. -/
def hexDigitVal (c : Char) : Option Nat :=
  if '0' ≤ c ∧ c ≤ '9' then some (c.toNat - '0'.toNat)
  else if 'a' ≤ c ∧ c ≤ 'f' then some (c.toNat - 'a'.toNat + 10)
  else if 'A' ≤ c ∧ c ≤ 'F' then some (c.toNat - 'A'.toNat + 10)
  else none

/-- Accumulate a digit list in base `b`; `none` on any invalid digit. -/
def parseDigitsBase (b : Nat) (cs : List Char) : Option Nat :=
  if cs = [] then none
  else cs.foldl
    (fun acc c => acc.bind fun a => (hexDigitVal c).bind fun v =>
      if v < b then some (a * b + v) else none)
    (some 0)

/-- `BigInt(s)` for the unsigned inputs the service meets: a `0x`/`0X`
prefix selects base 16, otherwise the string is decimal; an invalid string
is `none` (JS throws a `SyntaxError`).  Binary/octal prefixes, signs and
surrounding whitespace do not occur in upstream data and are not modelled. -/
def parseBigInt (s : String) : Option Nat :=
  match s.data with
  | '0' :: 'x' :: rest => parseDigitsBase 16 rest
  | '0' :: 'X' :: rest => parseDigitsBase 16 rest
  | cs => parseDigitsBase 10 cs

/-- `parseInt(s, 16)`: skip an optional `0x`/`0X` prefix, read the leading
run of hex digits, `none` when there is none (JS `NaN`).  Signs and leading
whitespace do not occur in upstream data and are not modelled. -/
def parseIntHex (s : String) : Option Nat :=
  let cs := match s.data with
    | '0' :: 'x' :: rest => rest
    | '0' :: 'X' :: rest => rest
    | cs => cs
  let ds := cs.takeWhile (fun c => (hexDigitVal c).isSome)
  if ds = [] then none else parseDigitsBase 16 ds

/-! ## Value conversion (`normalizeTransfer`, lines 154–216)

`formatUnits n decimals` is the exact transcription of the conversion the
service applies to a decoded raw value `n` (`BigInt` → decimal string with
`decimals` fractional digits): stringify, compare against `"0"`, pad to
`decimals+1` characters, split, join with `'.'`, apply the
`replace(/\.?0+$/, "")` regex, and collapse `""`/`"."` to `"0"`. -/

def formatUnits (n : Nat) (decimals : Nat) : String :=
  let rawValueStr := natDigits n
  if rawValueStr = ['0'] then "0"
  else
    let padded := leftPad '0' (decimals + 1) rawValueStr
    let splitIndex := padded.length - decimals
    let integerPart := if padded.take splitIndex = [] then ['0'] else padded.take splitIndex
    let fractionalPart := padded.drop splitIndex
    let value := stripTrailingZeroRun (integerPart ++ '.' :: fractionalPart)
    if value = [] ∨ value = ['.'] then "0" else ⟨value⟩

/-- The conversion as the specification words it: decode the integer,
left-pad its decimal digit string to at least `decimals+1` characters,
split off the last `decimals` digits as the fractional part, join with
`'.'`, strip trailing fractional zeros (dropping the decimal point when the
whole fraction is zeros), and collapse an all-zero value to `"0"`. -/
def formatUnitsSpec (n : Nat) (decimals : Nat) : String :=
  if n = 0 then "0"
  else
    let padded := leftPad '0' (decimals + 1) (natDigits n)
    let splitIndex := padded.length - decimals
    let integerPart := padded.take splitIndex
    let fractionalPart := rstripZeros (padded.drop splitIndex)
    if fractionalPart = [] then ⟨integerPart⟩
    else ⟨integerPart ++ '.' :: fractionalPart⟩

/-! ### Digit-string facts -/

theorem toDigitsCore_mem (fuel : Nat) :
    ∀ (n : Nat) (ds : List Char) (c : Char),
      c ∈ Nat.toDigitsCore 10 fuel n ds → c ∈ ds ∨ ∃ k, k < 10 ∧ c = Nat.digitChar k := by
  induction fuel with
  | zero => intro n ds c h; exact Or.inl h
  | succ fuel ih =>
    intro n ds c h
    simp only [Nat.toDigitsCore] at h
    split at h
    · rw [List.mem_cons] at h
      rcases h with h | h
      · exact Or.inr ⟨n % 10, Nat.mod_lt _ (by norm_num), h⟩
      · exact Or.inl h
    · rcases ih _ _ _ h with h' | h'
      · rw [List.mem_cons] at h'
        rcases h' with h' | h'
        · exact Or.inr ⟨n % 10, Nat.mod_lt _ (by norm_num), h'⟩
        · exact Or.inl h'
      · exact Or.inr h'

theorem toDigitsCore_length (fuel : Nat) :
    ∀ (n : Nat) (ds : List Char), fuel ≠ 0 →
      ds.length < (Nat.toDigitsCore 10 fuel n ds).length := by
  induction fuel with
  | zero => intro n ds h; exact absurd rfl h
  | succ fuel ih =>
    intro n ds _
    simp only [Nat.toDigitsCore]
    split
    · simp
    · rcases Nat.eq_zero_or_pos fuel with hf | hf
      · subst hf
        simp [Nat.toDigitsCore]
      · exact Nat.lt_trans (by simp) (ih _ _ (Nat.pos_iff_ne_zero.mp hf))

theorem natDigits_ne_nil (n : Nat) : natDigits n ≠ [] := by
  have h := toDigitsCore_length (n + 1) n [] (Nat.succ_ne_zero n)
  intro hc
  rw [natDigits, Nat.toDigits] at hc
  rw [hc] at h
  simp at h

theorem natDigits_mem_digit {n : Nat} {c : Char} (h : c ∈ natDigits n) :
    ∃ k, k < 10 ∧ c = Nat.digitChar k := by
  rcases toDigitsCore_mem (n + 1) n [] c h with h' | h'
  · simp at h'
  · exact h'

theorem natDigits_not_dot {n : Nat} {c : Char} (h : c ∈ natDigits n) : c ≠ '.' := by
  rcases natDigits_mem_digit h with ⟨k, hk, rfl⟩
  interval_cases k <;> decide

theorem natDigits_zero : natDigits 0 = ['0'] := rfl

theorem natDigits_eq_zero_iff {n : Nat} : natDigits n = ['0'] ↔ n = 0 := by
  constructor
  · intro h
    by_contra hn
    rcases Nat.lt_or_ge n 10 with hlt | hge
    · have hd : natDigits n = [Nat.digitChar n] := by
        rw [natDigits, Nat.toDigits]
        simp only [Nat.toDigitsCore]
        rw [if_pos (Nat.div_eq_of_lt hlt), Nat.mod_eq_of_lt hlt]
      rw [hd] at h
      have hdc : Nat.digitChar n = '0' := by simpa using h
      interval_cases n
      · exact hn rfl
      all_goals revert hdc; decide
    · have hstep : natDigits n
          = Nat.toDigitsCore 10 n (n / 10) [Nat.digitChar (n % 10)] := by
        rw [natDigits, Nat.toDigits]
        simp only [Nat.toDigitsCore]
        rw [if_neg]
        intro hdiv
        have := Nat.div_eq_of_lt (by omega : n < 10)
        omega
      have hlen := toDigitsCore_length n (n / 10) [Nat.digitChar (n % 10)] (by omega)
      rw [← hstep] at hlen
      rw [h] at hlen
      simp at hlen
  · intro h; subst h; rfl

/-! ### The regex `replace(/\.?0+$/, "")` on an `integer ++ "." ++ fraction` string -/

theorem stripTrailingZeroRun_split (I F : List Char) (hF : F ≠ [])
    (hFdot : ∀ c ∈ F, c ≠ '.') :
    stripTrailingZeroRun (I ++ '.' :: F)
      = if rstripZeros F = [] then I else I ++ '.' :: rstripZeros F := by
  have hFrev : F.reverse ≠ [] := by simpa using hF
  obtain ⟨d, G, hfr⟩ := List.exists_cons_of_ne_nil hFrev
  have hdF : d ∈ F := List.mem_reverse.mp (by rw [hfr]; exact List.mem_cons_self _ _)
  have hddot : d ≠ '.' := hFdot d hdF
  have hrev : (I ++ '.' :: F).reverse = d :: (G ++ '.' :: I.reverse) := by
    rw [List.reverse_append, List.reverse_cons, hfr]
    simp
  have hstripF : rstripZeros F = (List.dropWhile (fun c => c == '0') (d :: G)).reverse := by
    rw [rstripZeros, hfr]
  simp only [stripTrailingZeroRun, hrev]
  by_cases h0 : d = '0'
  · subst h0
    rw [if_pos (by simp)]
    rw [List.dropWhile_cons]
    simp only [beq_self_eq_true, if_true]
    rw [List.dropWhile_append]
    by_cases hnil : List.dropWhile (fun c => c == '0') G = []
    · rw [hnil]
      simp only [List.isEmpty_nil, if_true]
      have hzros : rstripZeros F = [] := by
        rw [hstripF, List.dropWhile_cons]
        simp [hnil]
      rw [if_pos hzros]
      rw [List.dropWhile_cons]
      simp
    · obtain ⟨e, rest, hd⟩ := List.exists_cons_of_ne_nil hnil
      have henot : (e == '0') = false := by
        have := List.head?_dropWhile_not (fun c => c == '0') G
        rw [hd] at this
        simpa using this
      have h1 : e ∈ List.dropWhile (fun c => c == '0') G := by
        rw [hd]; exact List.mem_cons_self _ _
      have heG : e ∈ G := List.Sublist.mem h1 (List.dropWhile_sublist _)
      have heF : e ∈ F := by
        refine List.mem_reverse.mp ?_
        rw [hfr]
        exact List.mem_cons_of_mem _ heG
      have hedot : e ≠ '.' := hFdot e heF
      have hzros : rstripZeros F = (e :: rest).reverse := by
        rw [hstripF, List.dropWhile_cons]
        simp [hd]
      rw [hd]
      simp only [List.isEmpty_cons, Bool.false_eq_true, if_false, List.cons_append,
        List.head?_cons]
      rw [if_neg (by simp only [Option.some.injEq]; exact hedot)]
      rw [if_neg (by rw [hzros]; simp), hzros]
      simp
  · rw [if_neg (by simp [h0])]
    have hzros : rstripZeros F = F := by
      rw [hstripF, List.dropWhile_cons]
      have : (d == '0') = false := by simpa using h0
      rw [this]
      rw [if_neg (by simp)]
      rw [← hfr, List.reverse_reverse]
    rw [hzros, if_neg hF]

theorem leftPad_length (c : Char) (n : Nat) (s : List Char) :
    (leftPad c n s).length = max n s.length := by
  simp [leftPad, Nat.sub_add_eq_max]

theorem leftPad_zeros_not_dot {n : Nat} {s : List Char} (hs : ∀ c ∈ s, c ≠ '.') :
    ∀ c ∈ leftPad '0' n s, c ≠ '.' := by
  intro c hc
  rw [leftPad, List.mem_append] at hc
  rcases hc with hc | hc
  · rw [List.eq_of_mem_replicate hc]
    decide
  · exact hs c hc

/-- On every input with at least one fractional digit (`1 ≤ decimals`, which
holds for native transfers, where `decimals = 18`, and for every erc20 token
with a nonzero decimals field), the service's conversion agrees exactly with
the specification's description of it. -/
theorem formatUnits_eq_spec (n d : Nat) (hd : 1 ≤ d) :
    formatUnits n d = formatUnitsSpec n d := by
  by_cases hn : n = 0
  · subst hn; rfl
  · have hdig : ¬(natDigits n = ['0']) := fun h => hn (natDigits_eq_zero_iff.mp h)
    simp only [formatUnits, formatUnitsSpec, hdig, hn, if_false]
    set padded := leftPad '0' (d + 1) (natDigits n) with hpad
    set k := padded.length - d with hk
    have hlen1 : d + 1 ≤ padded.length := by
      rw [hpad, leftPad_length]; exact le_max_left _ _
    have hkle : k ≤ padded.length := Nat.sub_le _ _
    have htake_len : (padded.take k).length = k := by
      rw [List.length_take]; omega
    have htake_ne : ¬(padded.take k = []) := by
      intro h
      rw [h] at htake_len
      simp at htake_len
      omega
    have hdrop_len : (padded.drop k).length = d := by
      rw [List.length_drop]; omega
    have hdrop_ne : padded.drop k ≠ [] := by
      intro h
      rw [h] at hdrop_len
      simp at hdrop_len
      omega
    have hpad_dot : ∀ c ∈ padded, c ≠ '.' :=
      leftPad_zeros_not_dot (fun c hc => natDigits_not_dot hc)
    have hdrop_dot : ∀ c ∈ padded.drop k, c ≠ '.' := fun c hc =>
      hpad_dot c (List.drop_subset _ _ hc)
    have htake_not_dot : padded.take k ≠ ['.'] := by
      intro h
      have : '.' ∈ padded.take k := by rw [h]; exact List.mem_cons_self _ _
      exact hpad_dot '.' (List.take_subset _ _ this) rfl
    rw [if_neg htake_ne]
    rw [stripTrailingZeroRun_split _ _ hdrop_ne hdrop_dot]
    by_cases hfrac : rstripZeros (padded.drop k) = []
    · rw [if_pos hfrac, if_pos hfrac]
      rw [if_neg (by push_neg; exact ⟨htake_ne, htake_not_dot⟩)]
    · have hk1 : 1 ≤ k := by omega
      have hne2 : ¬(List.take k padded ++ '.' :: rstripZeros (List.drop k padded) = []
          ∨ List.take k padded ++ '.' :: rstripZeros (List.drop k padded) = ['.']) := by
        push_neg
        refine ⟨by simp, ?_⟩
        intro h
        obtain ⟨t, ts, hts⟩ := List.exists_cons_of_ne_nil htake_ne
        rw [hts, List.cons_append] at h
        simp only [List.cons.injEq] at h
        rcases h with ⟨h1, h2⟩
        simp at h2
      rw [if_neg hfrac, if_neg hfrac]
      rw [if_neg hne2]

/-- With `decimals = 0` and a nonzero value, the code emits the integer
digits followed by a bare trailing decimal point (the regex only removes a
`'.'` when it directly precedes a trailing zero run, and the fractional part
is empty here, so nothing matches). -/
theorem formatUnits_zero_decimals (n : Nat) (hn : n ≠ 0) :
    formatUnits n 0 = ⟨natDigits n ++ ['.']⟩ := by
  have hdig : ¬(natDigits n = ['0']) := fun h => hn (natDigits_eq_zero_iff.mp h)
  simp only [formatUnits, hdig, if_false]
  have hlen : (leftPad '0' (0 + 1) (natDigits n)).length = (natDigits n).length := by
    rw [leftPad_length]
    have := List.length_pos.mpr (natDigits_ne_nil n)
    omega
  have hpadeq : leftPad '0' (0 + 1) (natDigits n) = natDigits n := by
    rw [leftPad]
    have : (0 + 1) - (natDigits n).length = 0 := by
      have := List.length_pos.mpr (natDigits_ne_nil n)
      omega
    rw [this]
    rfl
  rw [hpadeq]
  have hks : (natDigits n).length - 0 = (natDigits n).length := by omega
  rw [hks, List.take_length, List.drop_length]
  rw [if_neg (natDigits_ne_nil n)]
  have hstrip : stripTrailingZeroRun (natDigits n ++ '.' :: []) = natDigits n ++ ['.'] := by
    rw [stripTrailingZeroRun]
    have : (natDigits n ++ '.' :: []).reverse = '.' :: (natDigits n).reverse := by simp
    rw [this]
    rw [if_neg (by simp)]
  rw [hstrip]
  rw [if_neg ?_]
  push_neg
  constructor
  · simp
  · intro h
    have hl := congrArg List.length h
    simp at hl
    exact natDigits_ne_nil n hl

/-! ## Data model (`evm.service.ts` interfaces) -/

/-- Upstream transfer category (`AlchemyTransfer.category`). -/
inductive TransferCategory
  | external
  | erc20
  | erc721
  | erc1155
deriving DecidableEq, Repr

/-- Output asset type of a `TxItem`. -/
inductive AssetType
  | native
  | erc20
  | erc721
  | erc1155
deriving DecidableEq, Repr

/-- Direction of a transfer relative to the target address. -/
inductive Direction
  | inbound
  | outbound
  | selfTransfer
  | unknown
deriving DecidableEq, Repr

/-- `AlchemyTransfer.rawContract`. -/
structure RawContract where
  value : Option String
  address : Option String
  decimal : Option String
deriving DecidableEq, Repr

/-- One raw upstream transfer record (`AlchemyTransfer`).  The optional
`metadata.blockTimestamp` ISO string is modelled by its epoch-millisecond
value (see the module header); `value` is the upstream decimal
approximation, a JS float that the service only meets at integral values
in the claims under study, modelled as an `Int`. -/
structure AlchemyTransfer where
  blockNum : String
  hash : String
  fromAddr : String
  toAddr : String
  value : Option Int
  asset : String
  category : TransferCategory
  rawContract : Option RawContract
  tokenId : Option String
  blockTimestampMillis : Option Int
deriving DecidableEq, Repr

/-- Canonical output transaction item (`TxItem`); `raw` carries the source
record exactly as the service stores the original transfer on the item. -/
structure TxItem where
  hash : String
  chainId : Nat
  timestamp : Int
  direction : Direction
  assetType : AssetType
  fromAddr : String
  toAddr : String
  value : String
  symbol : Option String
  tokenAddress : Option String
  tokenId : Option String
  raw : AlchemyTransfer
deriving DecidableEq, Repr

/-- `TxHistoryResponse`. -/
structure TxHistoryResponse where
  items : List TxItem
  nextPageKey : Option String
deriving DecidableEq, Repr

/-! ## `determineDirection` (lines 118–137) -/

def determineDirection (fromA toA address : String) : Direction :=
  let fromLower := strToLower fromA
  let toLower := strToLower toA
  let addressLower := strToLower address
  if fromLower = addressLower ∧ toLower = addressLower then .selfTransfer
  else if fromLower = addressLower then .outbound
  else if toLower = addressLower then .inbound
  else .unknown

/-! ## `normalizeTransfer` (lines 139–251) -/

/-- `(v).toString()` for an integral JS number, followed by the same
`replace(/\.?0+$/, "")` regex and `""`/`"."` collapse the hex path uses
(the fallback branch for native transfers, lines 177–184). -/
def jsNumFormat (v : Int) : String :=
  let s : List Char := if v < 0 then '-' :: natDigits v.natAbs else natDigits v.natAbs
  let value := stripTrailingZeroRun s
  if value = [] ∨ value = ['.'] then "0" else ⟨value⟩

/-- The erc20 branch when `parseInt(rawContract.decimal, 16)` is `NaN`
(an unparseable decimals field): `padStart(NaN)` pads nothing,
`slice(0, NaN)` is empty (so the `|| "0"` fallback fires) and `slice(NaN)`
is the whole string, producing `"0." ++ digits` before the regex. -/
def formatUnitsNanDecimals (n : Nat) : String :=
  let rawValueStr := natDigits n
  if rawValueStr = ['0'] then "0"
  else
    let value := stripTrailingZeroRun ('0' :: '.' :: rawValueStr)
    if value = [] ∨ value = ['.'] then "0" else ⟨value⟩

/-- `normalizeTransfer(transfer, chainId, address)` with `now` the current
instant used when the block timestamp is missing.  The only failure is the
`BigInt(...)` `SyntaxError` on an unparseable raw value, which the service
lets escape to its caller. -/
def normalizeTransfer (t : AlchemyTransfer) (chainId : Nat) (address : String)
    (now : Int) : Except String TxItem := do
  let direction := determineDirection t.fromAddr t.toAddr address
  let rcValue := t.rawContract.bind (·.value)
  let (value, symbol, tokenAddress) ←
    match t.category with
    | .external =>
      if jsTruthy rcValue then
        match parseBigInt (rcValue.getD "") with
        | none => Except.error "Cannot convert rawContract.value to a BigInt"
        | some n => Except.ok (formatUnits n 18, some "ETH", (none : Option String))
      else
        match t.value with
        | some v =>
          if v ≠ 0 then Except.ok (jsNumFormat v, some "ETH", none)
          else Except.ok ("0", some "ETH", none)
        | none => Except.ok ("0", some "ETH", none)
    | .erc20 => do
      let rcDecimal := t.rawContract.bind (·.decimal)
      let value ←
        if jsTruthy rcValue then
          match parseBigInt (rcValue.getD "") with
          | none => Except.error "Cannot convert rawContract.value to a BigInt"
          | some n =>
            if jsTruthy rcDecimal then
              match parseIntHex (rcDecimal.getD "") with
              | some decimals => Except.ok (formatUnits n decimals)
              | none => Except.ok (formatUnitsNanDecimals n)
            else Except.ok (formatUnits n 18)
        else Except.ok (formatUnits 0 18)
      let tokenAddress := (t.rawContract.bind (·.address)).map strToLower
      let symbol := if t.asset ≠ "" then t.asset else "TOKEN"
      pure (value, some symbol, tokenAddress)
    | .erc721 | .erc1155 =>
      let value := match t.tokenId with
        | some s => if s ≠ "" then s else "1"
        | none => "1"
      let tokenAddress := (t.rawContract.bind (·.address)).map strToLower
      let symbol := if t.asset ≠ "" then t.asset else "NFT"
      Except.ok (value, some symbol, tokenAddress)
  let timestamp := t.blockTimestampMillis.getD now
  Except.ok {
    hash := t.hash
    chainId := chainId
    timestamp := timestamp
    direction := direction
    assetType :=
      match t.category with
      | .external => .native
      | .erc20 => .erc20
      | .erc721 => .erc721
      | .erc1155 => .erc1155
    fromAddr := strToLower t.fromAddr
    toAddr := strToLower t.toAddr
    value := value
    symbol := symbol
    tokenAddress := tokenAddress
    tokenId := t.tokenId
    raw := t
  }

/-! ## Claim C1 — exact hex-to-decimal conversion -/

/-- Concrete native transfer whose raw value is the given hex wei string. -/
def nativeHexTransfer (v : String) : AlchemyTransfer where
  blockNum := "0x1"
  hash := "0xhash1"
  fromAddr := "0xa"
  toAddr := "0xb"
  value := none
  asset := "ETH"
  category := .external
  rawContract := some { value := some v, address := none, decimal := none }
  tokenId := none
  blockTimestampMillis := some 1700000000000

/-- Concrete erc20 transfer with raw value `"0x5"` and a declared decimals
field of `"0"` (a zero-decimals token). -/
def zeroDecimalsTransfer : AlchemyTransfer where
  blockNum := "0x1"
  hash := "0xhash2"
  fromAddr := "0xa"
  toAddr := "0xb"
  value := none
  asset := "TOK"
  category := .erc20
  rawContract := some { value := some "0x5", address := none, decimal := some "0" }
  tokenId := none
  blockTimestampMillis := some 1700000000000

/-- Claim C1, counterexample.  The claim quantifies over every native or
erc20 transfer carrying a hex raw value; for an erc20 transfer whose
hex-decoded decimals field is `0`, the normalizer emits `"5."` — the regex
leaves the bare trailing decimal point — while the claimed conversion
(split, join with `'.'`, strip trailing fractional zeros, as captured by
`formatUnitsSpec`) yields `"5"`. -/
theorem claim_C1_counterexample :
    (normalizeTransfer zeroDecimalsTransfer 1 "0xa" 0).map (fun i => i.value)
        = Except.ok "5."
      ∧ formatUnitsSpec 5 0 = "5"
      ∧ ("5." : String) ≠ "5" := by
  refine ⟨rfl, rfl, by decide⟩

/-- Claim C1, amended.  For every transfer value whose decimals count is at
least 1 — which covers every native transfer (`decimals = 18`) and every
erc20 transfer with a nonzero decimals field — the service's conversion
agrees exactly with the claimed pad/split/join/strip algorithm; with zero
decimals the code instead keeps a bare trailing `'.'`.  The claim's three
round-trip examples hold as stated, the first exercised end-to-end through
the normalizer. -/
theorem claim_C1 :
    (∀ n d : Nat, 1 ≤ d → formatUnits n d = formatUnitsSpec n d)
      ∧ (∀ n : Nat, n ≠ 0 → formatUnits n 0 = ⟨natDigits n ++ ['.']⟩)
      ∧ parseBigInt "0xde0b6b3a7640000" = some (10 ^ 18)
      ∧ (normalizeTransfer (nativeHexTransfer "0xde0b6b3a7640000") 1 "0xa" 0).map
          (fun i => i.value) = Except.ok "1"
      ∧ parseBigInt "0x0" = some 0
      ∧ (normalizeTransfer (nativeHexTransfer "0x0") 1 "0xa" 0).map
          (fun i => i.value) = Except.ok "0"
      ∧ formatUnits 1500000 6 = "1.5" := by
  refine ⟨formatUnits_eq_spec, formatUnits_zero_decimals, by decide, rfl, by decide, rfl, by decide⟩

/-- Claim C1, witness: the general equivalence applied at the claim's own
`decimals = 6` example. -/
theorem claim_C1_witness :
    formatUnits 1500000 6 = formatUnitsSpec 1500000 6 :=
  claim_C1.1 1500000 6 (by norm_num)

/-! ## Claim C2 — exactness of every emitted value string -/

/-- Concrete native transfer carrying only the upstream decimal
approximation `100` (no `rawContract.value`). -/
def decimalFallbackTransfer : AlchemyTransfer where
  blockNum := "0x1"
  hash := "0xhash3"
  fromAddr := "0xa"
  toAddr := "0xb"
  value := some 100
  asset := "ETH"
  category := .external
  rawContract := none
  tokenId := none
  blockTimestampMillis := some 1700000000000

/-- Claim C2: code bug.  A native transfer whose only value is the decimal
approximation `100` is normalized to the value string `"1"`: the
`replace(/\.?0+$/, "")` regex, written to strip a fractional tail, also
strips the trailing zeros of a plain integer, so the emitted string is not
an exact representation of the transferred amount and the claimed invariant
fails on the code. -/
theorem claim_C2 :
    (normalizeTransfer decimalFallbackTransfer 1 "0xa" 0).map (fun i => i.value)
        = Except.ok "1"
      ∧ ("1" : String) ≠ "100" := by
  refine ⟨rfl, by decide⟩

/-! ## Claim C9 — direction classification -/

/-- Claim C9: for every triple of address strings the classification is by
case-insensitive match of `from` and `to` against the target: both match →
self, only `from` → out, only `to` → in, neither → unknown. -/
theorem claim_C9 :
    ∀ f t a : String,
      (strToLower f = strToLower a → strToLower t = strToLower a →
        determineDirection f t a = .selfTransfer)
      ∧ (strToLower f = strToLower a → strToLower t ≠ strToLower a →
        determineDirection f t a = .outbound)
      ∧ (strToLower f ≠ strToLower a → strToLower t = strToLower a →
        determineDirection f t a = .inbound)
      ∧ (strToLower f ≠ strToLower a → strToLower t ≠ strToLower a →
        determineDirection f t a = .unknown) := by
  intro f t a
  refine ⟨?_, ?_, ?_, ?_⟩ <;> intro h1 h2 <;> simp [determineDirection, h1, h2]

/-- Claim C9, witness: the spec's own example `from=A, to=B, target=A`
(with differing letter case) classifies as `out`. -/
theorem claim_C9_witness :
    determineDirection "0xAb" "0xCd" "0xaB" = .outbound :=
  (claim_C9 "0xAb" "0xCd" "0xaB").2.1 (by decide) (by decide)

/-! ## Input validation and chain resolution -/

/-- Hexadecimal digit test for the address pattern `[a-fA-F0-9]`. -/
def isHexDigitChar (c : Char) : Bool :=
  ('0' ≤ c ∧ c ≤ '9') ∨ ('a' ≤ c ∧ c ≤ 'f') ∨ ('A' ≤ c ∧ c ≤ 'F')

/-- `validateAddress` (lines 94–104): prefix check, length check, then the
full `^0x[a-fA-F0-9]{40}$` pattern (with prefix and length already
established, the remaining content of the pattern is that the last 40
characters are hex digits). -/
def validateAddress (address : String) : Except String Unit :=
  if ¬(address.data.take 2 = ['0', 'x']) then
    Except.error "Address must start with 0x"
  else if address.length ≠ 42 then
    Except.error "Address must be 42 characters"
  else if ¬((address.data.drop 2).all isHexDigitChar) then
    Except.error "Invalid address format"
  else Except.ok ()

/-- Effective `TX_HISTORY_MAX_PAGE_SIZE`: `config.get(...) || 100`, where
an unset key and the falsy value `0` both yield the default `100`. -/
def effectiveMaxPageSize (cfg : Option Rat) : Rat :=
  match cfg with
  | none => 100
  | some m => if m = 0 then 100 else m

/-- `validatePageSize` (lines 106–116).  The requested size is a JS number
(`Rat` in the model); the TypeScript-level `typeof` guard cannot fail for a
typed number, so the only rejection is `pageSize < 1`. -/
def validatePageSize (pageSize : Option Rat) (cfg : Option Rat) : Except String Rat :=
  let maxPageSize := effectiveMaxPageSize cfg
  match pageSize with
  | none => Except.ok (min 100 maxPageSize)
  | some p =>
    if p < 1 then Except.error "pageSize must be a positive number"
    else Except.ok (min p maxPageSize)

/-- Static map from chain id to credential key name (lines 54–61). -/
def chainIdToKey (chainId : Nat) : Option String :=
  match chainId with
  | 1 => some "ALCHEMY_KEY_ETH"
  | 8453 => some "ALCHEMY_KEY_BASE"
  | 42161 => some "ALCHEMY_KEY_ARB"
  | 137 => some "ALCHEMY_KEY_POLY"
  | 11155111 => some "ALCHEMY_KEY_SEPOLIA"
  | 84532 => some "ALCHEMY_KEY_BASE_SEPOLIA"
  | _ => none

/-- Static map from chain id to network slug (lines 63–70). -/
def chainIdToNetwork (chainId : Nat) : Option String :=
  match chainId with
  | 1 => some "eth-mainnet"
  | 8453 => some "base-mainnet"
  | 42161 => some "arb-mainnet"
  | 137 => some "polygon-mainnet"
  | 11155111 => some "eth-sepolia"
  | 84532 => some "base-sepolia"
  | _ => none

/-- Configuration source: the credential lookup of `ConfigService` plus the
two pipeline settings the service reads. -/
structure Config where
  keys : String → Option String
  txHistoryMaxPageSize : Option Rat
  txHistoryDefaultFromBlock : Option String

/-- `getAlchemyUrl` (lines 77–92): unsupported chain and unset (or empty,
JS-falsy) credential both throw `BadRequestException`; otherwise the
endpoint URL embeds the network slug and the credential. -/
def getAlchemyUrl (cfg : Config) (chainId : Nat) : Except String String :=
  match chainIdToKey chainId with
  | none => Except.error ("Unsupported chainId: " ++ Nat.repr chainId)
  | some keyName =>
    match cfg.keys keyName with
    | none => Except.error ("Alchemy API key not configured for chainId: " ++ Nat.repr chainId)
    | some apiKey =>
      if apiKey = "" then
        Except.error ("Alchemy API key not configured for chainId: " ++ Nat.repr chainId)
      else
        Except.ok ("https://" ++ (chainIdToNetwork chainId).getD "undefined"
          ++ ".g.alchemy.com/v2/" ++ apiKey)

/-- Cache key (lines 282–284): `txh:{chainId}:{address}:{pageKey}` when the
pageKey is truthy, else `txh:{chainId}:{address}:first`; the address is
interpolated exactly as the caller supplied it. -/
def cacheKeyOf (chainId : Nat) (address : String) (pageKey : Option String) : String :=
  if jsTruthy pageKey then
    "txh:" ++ Nat.repr chainId ++ ":" ++ address ++ ":" ++ pageKey.getD ""
  else
    "txh:" ++ Nat.repr chainId ++ ":" ++ address ++ ":first"

/-! ## Claim C5 — page-size clamping -/

/-- Claim C5, counterexample.  The validator's only rejection test is
`pageSize < 1`, so the non-integer request `2.5` — which the claim says
fails with `InvalidPageSize` — is accepted and returned as-is. -/
theorem claim_C5_counterexample :
    validatePageSize (some (5 / 2)) none = Except.ok (5 / 2)
      ∧ ((5 / 2 : Rat).den ≠ 1) := by
  constructor
  · rw [validatePageSize]
    rw [if_neg (by norm_num)]
    rw [effectiveMaxPageSize]
    norm_num
  · norm_num

/-- Claim C5, amended.  An absent request yields `min 100 maxConfigured`;
a present request fails exactly when it is smaller than 1 (non-integral
values of at least 1 are accepted and clamped, not rejected); and whenever
the effective configured maximum is at least 1, every successful result is
strictly positive. -/
theorem claim_C5 :
    (∀ cfg : Option Rat,
      validatePageSize none cfg = Except.ok (min 100 (effectiveMaxPageSize cfg)))
      ∧ (∀ (cfg : Option Rat) (p : Rat), p < 1 →
        validatePageSize (some p) cfg = Except.error "pageSize must be a positive number")
      ∧ (∀ (cfg : Option Rat) (p : Rat), 1 ≤ p →
        validatePageSize (some p) cfg = Except.ok (min p (effectiveMaxPageSize cfg)))
      ∧ (∀ (cfg ps : Option Rat) (q : Rat), 1 ≤ effectiveMaxPageSize cfg →
        validatePageSize ps cfg = Except.ok q → 0 < q) := by
  refine ⟨fun cfg => rfl, ?_, ?_, ?_⟩
  · intro cfg p h
    rw [validatePageSize, if_pos h]
  · intro cfg p h
    rw [validatePageSize, if_neg (not_lt.mpr h)]
  · intro cfg ps q hmax hok
    match ps with
    | none =>
      rw [validatePageSize] at hok
      have hq : q = min 100 (effectiveMaxPageSize cfg) := by
        simpa using hok.symm
      rw [hq]
      exact lt_of_lt_of_le one_pos (le_min (by norm_num) hmax)
    | some p =>
      rw [validatePageSize] at hok
      by_cases hp : p < 1
      · rw [if_pos hp] at hok
        exact absurd hok (by simp)
      · rw [if_neg hp] at hok
        have hq : q = min p (effectiveMaxPageSize cfg) := by
          simpa using hok.symm
        rw [hq]
        exact lt_of_lt_of_le one_pos (le_min (not_lt.mp hp) hmax)

/-- Claim C5, witness: a request of 7 under an unset maximum is accepted
and clamped, a request of 1/2 is rejected, and the positivity consequence
applies at the accepted request. -/
theorem claim_C5_witness :
    validatePageSize (some 7) none = Except.ok (min 7 (effectiveMaxPageSize none))
      ∧ validatePageSize (some (1 / 2)) none
          = Except.error "pageSize must be a positive number"
      ∧ (0 : Rat) < 7 :=
  ⟨claim_C5.2.2.1 none 7 (by norm_num),
   claim_C5.2.1 none (1 / 2) (by norm_num),
   claim_C5.2.2.2 none (some 7) 7 (by rw [effectiveMaxPageSize]; norm_num)
     (by rw [validatePageSize, if_neg (by norm_num), effectiveMaxPageSize]; norm_num)⟩

/-! ## Claim C4 — cache key and address case -/

/-- Claim C4, counterexample.  Two requests identical except for the letter
case of the (valid) address produce different cache keys, so a page stored
by one is not found by the other; the claim asserts they share one entry
via lowercasing. -/
theorem claim_C4_counterexample :
    cacheKeyOf 1 "0xAAaaAAaaAAaaAAaaAAaaAAaaAAaaAAaaAAaaAAaa" none
        ≠ cacheKeyOf 1 "0xaaaaaaaaaaaaaaaaaaaaaaaaaaaaaaaaaaaaaaaa" none
      ∧ strToLower "0xAAaaAAaaAAaaAAaaAAaaAAaaAAaaAAaaAAaaAAaa"
          = "0xaaaaaaaaaaaaaaaaaaaaaaaaaaaaaaaaaaaaaaaa"
      ∧ validateAddress "0xAAaaAAaaAAaaAAaaAAaaAAaaAAaaAAaaAAaaAAaa" = Except.ok ()
      ∧ validateAddress "0xaaaaaaaaaaaaaaaaaaaaaaaaaaaaaaaaaaaaaaaa" = Except.ok () := by
  refine ⟨by decide, by decide, rfl, rfl⟩

/-- Claim C4, amended.  The cache key embeds the address exactly as
supplied (no lowercasing), so for a fixed chain and page key two addresses
share a cache entry precisely when they are the same string — requests
differing only in case use distinct entries. -/
theorem claim_C4 :
    ∀ (chainId : Nat) (a a' : String) (pageKey : Option String),
      cacheKeyOf chainId a pageKey = cacheKeyOf chainId a' pageKey ↔ a = a' := by
  intro c a a' pk
  constructor
  · intro h
    rw [cacheKeyOf, cacheKeyOf] at h
    by_cases hk : jsTruthy pk
    · rw [if_pos hk, if_pos hk] at h
      have hd := congrArg String.data h
      simp only [String.data_append] at hd
      exact String.ext
        (List.append_cancel_left
          (List.append_cancel_right (List.append_cancel_right hd)))
    · rw [if_neg hk, if_neg hk] at h
      have hd := congrArg String.data h
      simp only [String.data_append] at hd
      exact String.ext (List.append_cancel_left (List.append_cancel_right hd))
  · intro h; rw [h]

/-! ## Merge, dedup, sort (lines 422–433) -/

/-- One step of building `new Map(items.map(item => [item.hash, item]))`:
a key already present keeps its (first-insertion) position but its value is
overwritten by the later item; a new key is appended. -/
def mapInsertByHash (acc : List TxItem) (item : TxItem) : List TxItem :=
  if acc.any (fun x => x.hash == item.hash) then
    acc.map (fun x => if x.hash == item.hash then item else x)
  else acc ++ [item]

/-- `Array.from(new Map(items.map(item => [item.hash, item])).values())`:
values in first-occurrence key order, each holding the last-seen item for
its hash. -/
def dedupByHash (items : List TxItem) : List TxItem :=
  items.foldl mapInsertByHash []

/-- Insertion into a descending-sorted list: the new element goes after
every element with an equal-or-later timestamp, preserving the relative
order of equal keys. -/
def insertByTimestampDesc (x : TxItem) : List TxItem → List TxItem
  | [] => [x]
  | y :: ys =>
    if x.timestamp ≤ y.timestamp then y :: insertByTimestampDesc x ys
    else x :: y :: ys

/-- `.sort((a, b) => date(b) - date(a))`: JS `Array.prototype.sort` is
stable, so its output is the unique stable descending reordering, which
this insertion fold computes. -/
def sortByTimestampDesc (l : List TxItem) : List TxItem :=
  l.foldl (fun acc x => insertByTimestampDesc x acc) []

/-! ## The `getTransactionHistory` pipeline (lines 253–457) -/

/-- Truncation of a JS number toward zero (`ToIntegerOrInfinity`). -/
def ratTrunc (q : Rat) : Int :=
  if q < 0 then -(((-q).num.toNat / (-q).den : Nat) : Int)
  else ((q.num.toNat / q.den : Nat) : Int)

/-- End index selected by `.slice(0, q)`: a negative bound counts from the
end (clamped at 0), a nonnegative one is truncated and clamped at `len`. -/
def jsSliceEnd (len : Nat) (q : Rat) : Nat :=
  let t := ratTrunc q
  if t < 0 then len - t.natAbs else min len t.toNat

/-- `s.substring(0, n)`. -/
def jsSubstring (s : String) (n : Nat) : String :=
  ⟨s.data.take n⟩

/-- Request parameter object passed to `alchemy_getAssetTransfers`.
`maxCount` holds `"0x" + validatedPageSize.toString(16)`; the model
formats the truncated magnitude (only integral positive sizes are
reachable through the HTTP controller, which parses the query parameter
with `parseInt`). -/
structure AlchemyParams where
  fromBlock : String
  category : List String
  withMetadata : Bool
  excludeZeroValue : Bool
  maxCount : String
  order : String
  toAddress : Option String
  fromAddress : Option String
  pageKey : Option String
deriving DecidableEq, Repr

/-- One `fetch` POST: target URL and JSON-RPC body (`id` and params). -/
structure FetchRequest where
  url : String
  rpcId : Nat
  params : AlchemyParams
deriving DecidableEq, Repr

/-- `json.result` of a successful `alchemy_getAssetTransfers` call. -/
structure AlchemyResponse where
  transfers : List AlchemyTransfer
  pageKey : Option String
deriving DecidableEq, Repr

/-- Observable outcome of one upstream `fetch`: the promise rejects
(transport error), the response is non-2xx, the body is not JSON, the
envelope carries an `error`, the envelope has neither `error` nor
`result`, or a well-formed result. -/
inductive FetchOutcome
  | throws (msg : String)
  | httpError (status : Nat) (body : String)
  | invalidJson (text : String)
  | rpcError (msg : String)
  | noResult
  | ok (result : AlchemyResponse)
deriving DecidableEq, Repr

/-- Environment of one request: injected config source, cache store
(lookup contents, and whether the store write succeeds or throws), the
upstream HTTP layer, and the current instant. -/
structure Env where
  config : Config
  cacheGet : String → Option TxHistoryResponse
  cacheSet : Except String Unit
  fetch : FetchRequest → FetchOutcome
  now : Int

/-- Errors inside the `try` block: `BadRequestException`s pass through the
`catch` unchanged, anything else is wrapped with a generic message. -/
inductive PipeErr
  | bre (msg : String)
  | other (msg : String)
deriving DecidableEq, Repr

/-- Result of one pipeline run together with its observable effects: the
key the cache was read with (if the run got that far), the upstream
requests issued, and the successful cache write (key, page, TTL millis). -/
structure RunResult where
  result : Except String TxHistoryResponse
  cacheReadKey : Option String
  fetches : List FetchRequest
  cacheWrite : Option (String × TxHistoryResponse × Nat)
deriving Repr

/-- Body of the `try` block (lines 318–444): inbound fetch with four
caller-visible failure modes, normalization, best-effort outbound fetch on
a first page (every failure mode suppressed), merge/dedup/sort/truncate,
cache write (a throwing store escapes to the `catch`). -/
def runTryBlock (env : Env) (chainId : Nat) (address : String)
    (pageKey : Option String) (validatedPageSize : Rat) (cacheKey : String)
    (inboundReq outboundReq : FetchRequest) :
    Except PipeErr TxHistoryResponse × List FetchRequest
      × Option (String × TxHistoryResponse × Nat) :=
  match env.fetch inboundReq with
  | .throws m => (.error (.other m), [inboundReq], none)
  | .httpError status _ =>
    (.error (.bre ("Alchemy API HTTP error: " ++ Nat.repr status)), [inboundReq], none)
  | .invalidJson text =>
    (.error (.bre ("Alchemy API returned invalid JSON: " ++ jsSubstring text 100)),
      [inboundReq], none)
  | .rpcError m => (.error (.bre ("Alchemy API error: " ++ m)), [inboundReq], none)
  | .noResult =>
    (.error (.other "Cannot read properties of undefined (reading 'transfers')"),
      [inboundReq], none)
  | .ok alchemyData =>
    match alchemyData.transfers.mapM (fun t => normalizeTransfer t chainId address env.now) with
    | .error m => (.error (.other m), [inboundReq], none)
    | .ok inboundItems =>
      let (items, fetches) :=
        if jsTruthy pageKey then (inboundItems, [inboundReq])
        else
          match env.fetch outboundReq with
          | .ok outboundData =>
            match outboundData.transfers.mapM
                (fun t => normalizeTransfer t chainId address env.now) with
            | .ok outboundItems => (inboundItems ++ outboundItems, [inboundReq, outboundReq])
            | .error _ => (inboundItems, [inboundReq, outboundReq])
          | _ => (inboundItems, [inboundReq, outboundReq])
      let uniqueItems := sortByTimestampDesc (dedupByHash items)
      let result : TxHistoryResponse :=
        { items := uniqueItems.take (jsSliceEnd uniqueItems.length validatedPageSize)
          nextPageKey := alchemyData.pageKey }
      let cacheTtlMillis := (if jsTruthy pageKey then 300 else 60) * 1000
      match env.cacheSet with
      | .error m => (.error (.other m), fetches, none)
      | .ok () => (.ok result, fetches, some (cacheKey, result, cacheTtlMillis))

/-- The `alchemyParams` object as populated in lines 271–316: from-block
default (`config || "0x0"`, empty string falsy), category default
(`categories || [...]`, an empty array is truthy and kept), metadata and
zero-value flags, hex `maxCount`, descending order, inbound target address
(lowercased), and the pageKey forwarded only when truthy. -/
def baseParamsOf (env : Env) (address : String) (pageKey : Option String)
    (validatedPageSize : Rat) (fromBlock : Option String)
    (categories : Option (List String)) : AlchemyParams :=
  let defaultFromBlock := match env.config.txHistoryDefaultFromBlock with
    | some s => if s ≠ "" then s else "0x0"
    | none => "0x0"
  { fromBlock := match fromBlock with
      | some f => if f ≠ "" then f else defaultFromBlock
      | none => defaultFromBlock
    category := categories.getD ["external", "erc20", "erc721", "erc1155"]
    withMetadata := true
    excludeZeroValue := true
    maxCount := "0x" ++ ⟨Nat.toDigits 16 (ratTrunc validatedPageSize).toNat⟩
    order := "desc"
    toAddress := some (strToLower address)
    fromAddress := none
    pageKey := if jsTruthy pageKey then pageKey else none }

/-- The full `getTransactionHistory(chainId, address, pageKey?, pageSize?,
fromBlock?, categories?)` pipeline. -/
def getTransactionHistory (env : Env) (chainId : Nat) (address : String)
    (pageKey : Option String) (pageSize : Option Rat) (fromBlock : Option String)
    (categories : Option (List String)) : RunResult :=
  if (chainIdToKey chainId).isNone then
    { result := .error ("Unsupported chainId: " ++ Nat.repr chainId)
      cacheReadKey := none, fetches := [], cacheWrite := none }
  else
    match validateAddress address with
    | .error e => { result := .error e, cacheReadKey := none, fetches := [], cacheWrite := none }
    | .ok () =>
      match validatePageSize pageSize env.config.txHistoryMaxPageSize with
      | .error e =>
        { result := .error e, cacheReadKey := none, fetches := [], cacheWrite := none }
      | .ok validatedPageSize =>
        let cacheKey := cacheKeyOf chainId address pageKey
        match env.cacheGet cacheKey with
        | some cached =>
          { result := .ok cached, cacheReadKey := some cacheKey, fetches := [], cacheWrite := none }
        | none =>
          match getAlchemyUrl env.config chainId with
          | .error e =>
            { result := .error e, cacheReadKey := some cacheKey, fetches := [], cacheWrite := none }
          | .ok alchemyUrl =>
            let baseParams : AlchemyParams :=
              baseParamsOf env address pageKey validatedPageSize fromBlock categories
            let inboundReq : FetchRequest := ⟨alchemyUrl, 1, baseParams⟩
            let outboundReq : FetchRequest :=
              ⟨alchemyUrl, 2,
                { baseParams with
                    toAddress := none, fromAddress := some (strToLower address),
                    pageKey := none }⟩
            let out := runTryBlock env chainId address pageKey validatedPageSize cacheKey
              inboundReq outboundReq
            { result :=
                match out.1 with
                | .ok r => .ok r
                | .error (.bre m) => .error m
                | .error (.other m) => .error ("Failed to fetch transaction history: " ++ m)
              cacheReadKey := some cacheKey
              fetches := out.2.1
              cacheWrite := out.2.2 }

/-! ## Claim C10 — empty-string pageKey -/

/-- Valid all-lowercase address used by the concrete scenarios. -/
def addrA : String := "0xaaaaaaaaaaaaaaaaaaaaaaaaaaaaaaaaaaaaaaaa"

/-- Environment for the C10 scenario: credential configured, empty cache,
every upstream query succeeds with an empty transfer batch. -/
def envC10 : Env where
  config :=
    { keys := fun _ => some "key-c10", txHistoryMaxPageSize := none,
      txHistoryDefaultFromBlock := none }
  cacheGet := fun _ => none
  cacheSet := .ok ()
  fetch := fun _ => .ok { transfers := [], pageKey := some "inCursor" }
  now := 0

/-- Claim C10: a request whose pageKey is the empty string behaves, in
result and in every observable effect, exactly like a request with no
pageKey at all (the empty string is JS-falsy at each of the four decision
points); the cache key gets the `"first"` suffix, and — demonstrated on a
concrete successful run — both the inbound and the outbound query are
issued (ids 1 and 2), neither forwards a pageKey upstream, and the cache
entry is written with the 60-second first-page TTL, not the 300-second one. -/
theorem claim_C10 :
    (∀ (env : Env) (chainId : Nat) (address : String) (pageSize : Option Rat)
        (fromBlock : Option String) (categories : Option (List String)),
      getTransactionHistory env chainId address (some "") pageSize fromBlock categories
        = getTransactionHistory env chainId address none pageSize fromBlock categories)
      ∧ (∀ (chainId : Nat) (address : String),
        cacheKeyOf chainId address (some "")
          = "txh:" ++ Nat.repr chainId ++ ":" ++ address ++ ":first")
      ∧ (getTransactionHistory envC10 1 addrA (some "") none none none).fetches.map
          (fun r => r.rpcId) = [1, 2]
      ∧ (getTransactionHistory envC10 1 addrA (some "") none none none).fetches.map
          (fun r => r.params.pageKey) = [none, none]
      ∧ (getTransactionHistory envC10 1 addrA (some "") none none none).cacheWrite.map
          (fun w => w.2.2) = some 60000 := by
  refine ⟨fun env chainId address pageSize fromBlock categories => rfl,
    fun chainId address => rfl, rfl, rfl, rfl⟩

/-! ## Claim C8 — validation order relative to the cache lookup -/

/-- Page stored in the cache for the C8 scenario. -/
def page8 : TxHistoryResponse := { items := [], nextPageKey := some "cursor8" }

/-- Environment for the C8 counterexample: a supported chain whose
credential key is unset, with a page already cached under every key. -/
def env8 : Env where
  config :=
    { keys := fun _ => none, txHistoryMaxPageSize := none,
      txHistoryDefaultFromBlock := none }
  cacheGet := fun _ => some page8
  cacheSet := .ok ()
  fetch := fun _ => .noResult
  now := 0

/-- Claim C8, counterexample.  A request for supported chain 1 whose
credential key is unset does not fail with the missing-credential error
when a cached page exists: the cached page is returned, because
`getAlchemyUrl` — the only place the credential is checked — runs only
after the cache lookup. -/
theorem claim_C8_counterexample :
    (getTransactionHistory env8 1 addrA none none none none).result = .ok page8
      ∧ env8.config.keys "ALCHEMY_KEY_ETH" = none
      ∧ chainIdToKey 1 = some "ALCHEMY_KEY_ETH" :=
  ⟨rfl, rfl, rfl⟩

/-- Claim C8, amended.  `UnsupportedChain`, `InvalidAddress` and the
page-size check are raised in the validating phase, before any cache read
and before any upstream call (the returned trace shows no cache-read key
and no fetches); `MissingCredential`, however, is raised only after the
cache lookup: with a cached page present the page is returned even when
the credential key is unset, and on a cache miss the missing credential
aborts the request before any fetch. -/
theorem claim_C8 :
    ∀ (env : Env) (chainId : Nat) (address : String) (pageKey : Option String)
      (pageSize : Option Rat) (fromBlock : Option String)
      (categories : Option (List String)),
      (chainIdToKey chainId = none →
        getTransactionHistory env chainId address pageKey pageSize fromBlock categories
          = { result := .error ("Unsupported chainId: " ++ Nat.repr chainId),
              cacheReadKey := none, fetches := [], cacheWrite := none })
      ∧ (∀ k e, chainIdToKey chainId = some k → validateAddress address = .error e →
        getTransactionHistory env chainId address pageKey pageSize fromBlock categories
          = { result := .error e, cacheReadKey := none, fetches := [], cacheWrite := none })
      ∧ (∀ k page q, chainIdToKey chainId = some k → validateAddress address = .ok () →
        validatePageSize pageSize env.config.txHistoryMaxPageSize = .ok q →
        env.cacheGet (cacheKeyOf chainId address pageKey) = some page →
        getTransactionHistory env chainId address pageKey pageSize fromBlock categories
          = { result := .ok page, cacheReadKey := some (cacheKeyOf chainId address pageKey),
              fetches := [], cacheWrite := none })
      ∧ (∀ k q e, chainIdToKey chainId = some k → validateAddress address = .ok () →
        validatePageSize pageSize env.config.txHistoryMaxPageSize = .ok q →
        env.cacheGet (cacheKeyOf chainId address pageKey) = none →
        getAlchemyUrl env.config chainId = .error e →
        getTransactionHistory env chainId address pageKey pageSize fromBlock categories
          = { result := .error e,
              cacheReadKey := some (cacheKeyOf chainId address pageKey),
              fetches := [], cacheWrite := none }) := by
  intro env chainId address pageKey pageSize fromBlock categories
  refine ⟨?_, ?_, ?_, ?_⟩
  · intro h
    simp [getTransactionHistory, h]
  · intro k e hk he
    simp [getTransactionHistory, hk, he]
  · intro k page q hk ha hq hc
    simp [getTransactionHistory, hk, ha, hq, hc]
  · intro k q e hk ha hq hc hu
    simp [getTransactionHistory, hk, ha, hq, hc, hu]

/-- Claim C8, witness: the cache-hit-despite-missing-credential conjunct
applied at a concrete supported chain (137) with an unset key. -/
theorem claim_C8_witness :
    getTransactionHistory env8 137 addrA none none none none
      = { result := .ok page8, cacheReadKey := some (cacheKeyOf 137 addrA none),
          fetches := [], cacheWrite := none } :=
  (claim_C8 env8 137 addrA none none none none).2.2.1 "ALCHEMY_KEY_POLY" page8
    (min 100 (effectiveMaxPageSize none)) rfl rfl rfl rfl

/-! ## Behaviour of the `try` block under specific outcomes -/

/-- Success test on a fetch outcome. -/
def FetchOutcome.isSuccess : FetchOutcome → Bool
  | .ok _ => true
  | _ => false

/-- Page the pipeline computes from a merged item list: dedup by hash, sort
by timestamp descending, truncate by `.slice(0, pageSize)`. -/
def computedPage (items : List TxItem) (nextPageKey : Option String) (q : Rat) :
    TxHistoryResponse :=
  let s := sortByTimestampDesc (dedupByHash items)
  { items := s.take (jsSliceEnd s.length q), nextPageKey := nextPageKey }

theorem runTryBlock_cacheSet_error_result (env : Env) (chainId : Nat) (address : String)
    (pageKey : Option String) (q : Rat) (cacheKey : String)
    (inR outR : FetchRequest) (m : String)
    (hm : env.cacheSet = .error m)
    (hf : ∀ req, ∃ resp items, env.fetch req = .ok resp
      ∧ resp.transfers.mapM (fun t => normalizeTransfer t chainId address env.now)
          = .ok items) :
    (runTryBlock env chainId address pageKey q cacheKey inR outR).1
      = .error (.other m) := by
  obtain ⟨resp, items, hr, hn⟩ := hf inR
  obtain ⟨resp2, items2, hr2, hn2⟩ := hf outR
  rw [runTryBlock, hr]
  by_cases hpk : jsTruthy pageKey <;>
    simp only [hn, hm, hr2, hn2, hpk, Bool.false_eq_true, if_true, if_false] <;>
    rfl

theorem runTryBlock_cacheSet_error_write (env : Env) (chainId : Nat) (address : String)
    (pageKey : Option String) (q : Rat) (cacheKey : String)
    (inR outR : FetchRequest) (m : String)
    (hm : env.cacheSet = .error m)
    (hf : ∀ req, ∃ resp items, env.fetch req = .ok resp
      ∧ resp.transfers.mapM (fun t => normalizeTransfer t chainId address env.now)
          = .ok items) :
    (runTryBlock env chainId address pageKey q cacheKey inR outR).2.2 = none := by
  obtain ⟨resp, items, hr, hn⟩ := hf inR
  obtain ⟨resp2, items2, hr2, hn2⟩ := hf outR
  rw [runTryBlock, hr]
  by_cases hpk : jsTruthy pageKey <;>
    simp only [hn, hm, hr2, hn2, hpk, Bool.false_eq_true, if_true, if_false] <;>
    rfl

theorem runTryBlock_outbound_failure (env : Env) (chainId : Nat) (address : String)
    (pageKey : Option String) (q : Rat) (cacheKey : String)
    (inR outR : FetchRequest) (data : AlchemyResponse) (inItems : List TxItem)
    (hpk : jsTruthy pageKey = false)
    (hin : env.fetch inR = .ok data)
    (hnorm : data.transfers.mapM (fun t => normalizeTransfer t chainId address env.now)
      = .ok inItems)
    (hout : (env.fetch outR).isSuccess = false)
    (hset : env.cacheSet = .ok ()) :
    runTryBlock env chainId address pageKey q cacheKey inR outR
      = (.ok (computedPage inItems data.pageKey q), [inR, outR],
          some (cacheKey, computedPage inItems data.pageKey q, 60000)) := by
  rw [runTryBlock, hin]
  simp only [hnorm, hpk, hset]
  cases houtcome : env.fetch outR with
  | throws m => rfl
  | httpError s b => rfl
  | invalidJson t => rfl
  | rpcError m => rfl
  | noResult => rfl
  | ok r =>
    rw [houtcome] at hout
    simp [FetchOutcome.isSuccess] at hout

theorem runTryBlock_inbound_failure (env : Env) (chainId : Nat) (address : String)
    (pageKey : Option String) (q : Rat) (cacheKey : String)
    (inR outR : FetchRequest)
    (hin : (env.fetch inR).isSuccess = false) :
    ∃ e, (runTryBlock env chainId address pageKey q cacheKey inR outR).1
      = .error e := by
  rw [runTryBlock]
  cases houtcome : env.fetch inR with
  | throws m => exact ⟨_, rfl⟩
  | httpError s b => exact ⟨_, rfl⟩
  | invalidJson t => exact ⟨_, rfl⟩
  | rpcError m => exact ⟨_, rfl⟩
  | noResult => exact ⟨_, rfl⟩
  | ok r =>
    rw [houtcome] at hin
    simp [FetchOutcome.isSuccess] at hin

/-! ## Claim C3 — cache-store write failure -/

/-- Environment for the C3 counterexample: everything succeeds except the
cache-store write, which throws. -/
def env3 : Env where
  config :=
    { keys := fun _ => some "key-c3", txHistoryMaxPageSize := none,
      txHistoryDefaultFromBlock := none }
  cacheGet := fun _ => none
  cacheSet := .error "cache store down"
  fetch := fun _ => .ok { transfers := [], pageKey := none }
  now := 0

/-- Claim C3, counterexample.  With validation and both fetches succeeding
but the cache-store write throwing, the pipeline does not return the
computed page: the store failure escapes the `try` block into the `catch`,
is wrapped, and surfaces to the caller as an error. -/
theorem claim_C3_counterexample :
    (getTransactionHistory env3 1 addrA none none none none).result
        = .error "Failed to fetch transaction history: cache store down"
      ∧ (getTransactionHistory env3 1 addrA none none none none).cacheWrite = none :=
  ⟨rfl, rfl⟩

/-- Claim C3, amended.  For every request whose validation and fetches
succeed, a failure of the cache-store write is not recovered: the write
sits inside the same `try`/`catch` as the fetches, so the thrown store
error is wrapped into the generic client-facing failure message and the
computed page is lost (nothing is returned and nothing is cached). -/
theorem claim_C3 :
    ∀ (env : Env) (chainId : Nat) (address : String) (pageKey : Option String)
      (pageSize : Option Rat) (fromBlock : Option String)
      (categories : Option (List String)) (k : String) (q : Rat) (url m : String),
      chainIdToKey chainId = some k →
      validateAddress address = .ok () →
      validatePageSize pageSize env.config.txHistoryMaxPageSize = .ok q →
      env.cacheGet (cacheKeyOf chainId address pageKey) = none →
      getAlchemyUrl env.config chainId = .ok url →
      env.cacheSet = .error m →
      (∀ req, ∃ resp items, env.fetch req = .ok resp
        ∧ resp.transfers.mapM (fun t => normalizeTransfer t chainId address env.now)
            = .ok items) →
      (getTransactionHistory env chainId address pageKey pageSize fromBlock categories).result
          = .error ("Failed to fetch transaction history: " ++ m)
        ∧ (getTransactionHistory env chainId address pageKey pageSize fromBlock
            categories).cacheWrite = none := by
  intro env chainId address pageKey pageSize fromBlock categories k q url m
  intro hk ha hq hc hu hm hf
  constructor
  · simp only [getTransactionHistory, hk, ha, hq, hc, hu]
    rw [runTryBlock_cacheSet_error_result env chainId address pageKey q
      (cacheKeyOf chainId address pageKey) _ _ m hm hf]
    simp
  · simp only [getTransactionHistory, hk, ha, hq, hc, hu]
    rw [runTryBlock_cacheSet_error_write env chainId address pageKey q
      (cacheKeyOf chainId address pageKey) _ _ m hm hf]
    simp

/-- Claim C3, witness: the amended theorem applied at the concrete failing
environment. -/
theorem claim_C3_witness :
    (getTransactionHistory env3 8453 addrA none none none none).result
        = .error "Failed to fetch transaction history: cache store down"
      ∧ (getTransactionHistory env3 8453 addrA none none none none).cacheWrite = none :=
  claim_C3 env3 8453 addrA none none none none "ALCHEMY_KEY_BASE"
    (min 100 (effectiveMaxPageSize none))
    "https://base-mainnet.g.alchemy.com/v2/key-c3" "cache store down"
    rfl rfl rfl rfl rfl rfl
    (fun req => ⟨{ transfers := [], pageKey := none }, [], rfl, rfl⟩)

/-! ## Claim C6 — inbound aborts, outbound is best-effort -/

/-- Claim C6: on a first-page request (falsy pageKey) whose validation and
cache lookup pass, (a) if the inbound query (JSON-RPC id 1) succeeds and
normalizes, then whatever failure mode the outbound query (id 2) exhibits,
the pipeline still succeeds and returns exactly the inbound-derived page;
(b) if the inbound query itself fails in any mode, the whole request aborts
with a caller-visible error. -/
theorem claim_C6 :
    ∀ (env : Env) (chainId : Nat) (address : String) (pageKey : Option String)
      (pageSize : Option Rat) (fromBlock : Option String)
      (categories : Option (List String)) (k : String) (q : Rat) (url : String),
      jsTruthy pageKey = false →
      chainIdToKey chainId = some k →
      validateAddress address = .ok () →
      validatePageSize pageSize env.config.txHistoryMaxPageSize = .ok q →
      env.cacheGet (cacheKeyOf chainId address pageKey) = none →
      getAlchemyUrl env.config chainId = .ok url →
      ((∀ (data : AlchemyResponse) (inItems : List TxItem),
          (∀ req, req.rpcId = 1 → env.fetch req = .ok data) →
          data.transfers.mapM (fun t => normalizeTransfer t chainId address env.now)
            = .ok inItems →
          (∀ req, req.rpcId = 2 → (env.fetch req).isSuccess = false) →
          env.cacheSet = .ok () →
          (getTransactionHistory env chainId address pageKey pageSize fromBlock
            categories).result = .ok (computedPage inItems data.pageKey q))
        ∧ ((∀ req, req.rpcId = 1 → (env.fetch req).isSuccess = false) →
          ∃ e, (getTransactionHistory env chainId address pageKey pageSize fromBlock
            categories).result = .error e)) := by
  intro env chainId address pageKey pageSize fromBlock categories k q url
  intro hpk hk ha hq hc hu
  constructor
  · intro data inItems hfin hnorm hfout hset
    have hin' := hfin
      (FetchRequest.mk url 1 (baseParamsOf env address pageKey q fromBlock categories)) rfl
    have hout' := hfout
      (FetchRequest.mk url 2
        { baseParamsOf env address pageKey q fromBlock categories with
            toAddress := none, fromAddress := some (strToLower address),
            pageKey := none }) rfl
    simp only [getTransactionHistory, hk, ha, hq, hc, hu]
    rw [runTryBlock_outbound_failure env chainId address pageKey q
      (cacheKeyOf chainId address pageKey) _ _ data inItems hpk hin' hnorm hout' hset]
    simp
  · intro hinfail
    have hin' := hinfail
      (FetchRequest.mk url 1 (baseParamsOf env address pageKey q fromBlock categories)) rfl
    obtain ⟨e, he⟩ := runTryBlock_inbound_failure env chainId address pageKey q
      (cacheKeyOf chainId address pageKey) _
      (FetchRequest.mk url 2
        { baseParamsOf env address pageKey q fromBlock categories with
            toAddress := none, fromAddress := some (strToLower address),
            pageKey := none }) hin'
    cases e with
    | bre m =>
      exact ⟨m, by simp [getTransactionHistory, hk, ha, hq, hc, hu, he]⟩
    | other m =>
      exact ⟨"Failed to fetch transaction history: " ++ m,
        by simp [getTransactionHistory, hk, ha, hq, hc, hu, he]⟩

/-- Environment for the C6 witness: inbound query (id 1) succeeds with an
empty batch, outbound query (id 2) throws a transport error. -/
def env6 : Env where
  config :=
    { keys := fun _ => some "key-c6", txHistoryMaxPageSize := none,
      txHistoryDefaultFromBlock := none }
  cacheGet := fun _ => none
  cacheSet := .ok ()
  fetch := fun r =>
    if r.rpcId = 1 then .ok { transfers := [], pageKey := some "inCursor6" }
    else .throws "ECONNRESET"
  now := 0

/-- Claim C6, witness: with the outbound fetch throwing a transport error
and the inbound fetch succeeding, the pipeline returns the inbound-derived
page successfully. -/
theorem claim_C6_witness :
    (getTransactionHistory env6 1 addrA none none none none).result
      = .ok (computedPage [] (some "inCursor6") (min 100 (effectiveMaxPageSize none))) :=
  (claim_C6 env6 1 addrA none none none none "ALCHEMY_KEY_ETH"
      (min 100 (effectiveMaxPageSize none)) "https://eth-mainnet.g.alchemy.com/v2/key-c6"
      rfl rfl rfl rfl rfl rfl).1
    { transfers := [], pageKey := some "inCursor6" } []
    (fun req h => by simp [env6, h])
    rfl
    (fun req h => by simp [env6, h, FetchOutcome.isSuccess])
    rfl

/-! ## Dedup and sort laws -/

theorem dedupByHash_append_single (l : List TxItem) (x : TxItem) :
    dedupByHash (l ++ [x]) = mapInsertByHash (dedupByHash l) x := by
  rw [dedupByHash, dedupByHash, List.foldl_append]
  rfl

theorem mapInsertByHash_hash_preserved (x y : TxItem) :
    (if y.hash == x.hash then x else y).hash = y.hash := by
  by_cases h : y.hash == x.hash
  · simp only [h, if_true]
    exact (eq_of_beq h).symm
  · simp [h]

theorem dedupByHash_pairwise_and_filter (l : List TxItem) :
    (dedupByHash l).Pairwise (fun a b => a.hash ≠ b.hash)
      ∧ ∀ h : String, (dedupByHash l).filter (fun y => y.hash == h)
          = ((l.filter (fun y => y.hash == h)).getLast?).toList := by
  induction l using List.reverseRecOn with
  | nil => exact ⟨List.Pairwise.nil, fun h => rfl⟩
  | append_singleton l x ih =>
    obtain ⟨ihp, ihf⟩ := ih
    rw [dedupByHash_append_single, mapInsertByHash]
    by_cases hpresent : (dedupByHash l).any (fun y => y.hash == x.hash)
    · rw [if_pos hpresent]
      constructor
      · refine (List.pairwise_map).mpr (ihp.imp_of_mem ?_)
        intro a b _ _ hab
        rw [mapInsertByHash_hash_preserved, mapInsertByHash_hash_preserved]
        exact hab
      · intro h
        rw [List.filter_map]
        have hpf : ∀ y ∈ dedupByHash l,
            ((fun z => z.hash == h) ∘ fun y => if y.hash == x.hash then x else y) y
              = (y.hash == h) := by
          intro y _
          simp only [Function.comp]
          rw [mapInsertByHash_hash_preserved]
        rw [List.filter_congr hpf, ihf h, List.filter_append]
        by_cases hx : (x.hash == h) = true
        · have hfilx : [x].filter (fun y => y.hash == h) = [x] := by simp [hx]
          rw [hfilx, List.getLast?_concat]
          have h1 : l.filter (fun y => y.hash == h) ≠ [] := by
            intro hcon
            obtain ⟨y, hy, hyx⟩ := List.any_eq_true.mp hpresent
            have hyh : (y.hash == h) = true := by
              rw [beq_iff_eq] at hyx hx ⊢
              rw [hyx]
              exact hx
            have hmem : y ∈ (dedupByHash l).filter (fun z => z.hash == h) :=
              List.mem_filter.mpr ⟨hy, hyh⟩
            rw [ihf h, hcon] at hmem
            simp at hmem
          obtain ⟨z, hz⟩ := Option.ne_none_iff_exists'.mp
            (fun hn => h1 (List.getLast?_eq_none_iff.mp hn))
          have hzmem := List.mem_of_getLast?_eq_some hz
          have hzh : (z.hash == x.hash) = true := by
            have hzh' := (List.mem_filter.mp hzmem).2
            rw [beq_iff_eq] at hzh' hx ⊢
            rw [hzh']
            exact hx.symm
          rw [hz]
          have hfz : (fun y => if y.hash == x.hash then x else y) z = x := by
            simp only [hzh, if_true]
          show [(fun y => if y.hash == x.hash then x else y) z] = [x]
          rw [hfz]
        · have hfilx : [x].filter (fun y => y.hash == h) = [] := by simp [hx]
          rw [hfilx, List.append_nil]
          rcases hlast : (l.filter (fun y => y.hash == h)).getLast? with _ | z
          · rw [hlast]
            rfl
          · have hzmem := List.mem_of_getLast?_eq_some hlast
            have hzh : (z.hash == x.hash) = false := by
              rw [beq_eq_false_iff_ne]
              have hzh' := (List.mem_filter.mp hzmem).2
              rw [eq_of_beq hzh']
              intro hcon
              apply hx
              rw [hcon]
              exact beq_self_eq_true x.hash
            have hfz : (fun y => if y.hash == x.hash then x else y) z = z := by
              simp only [hzh]
              simp
            rw [hlast]
            show [(fun y => if y.hash == x.hash then x else y) z] = [z]
            rw [hfz]
    · rw [if_neg hpresent]
      have habsent : ∀ y ∈ dedupByHash l, (y.hash == x.hash) = false := by
        intro y hy
        by_contra hcon
        rw [Bool.not_eq_false] at hcon
        exact hpresent (List.any_eq_true.mpr ⟨y, hy, hcon⟩)
      constructor
      · rw [List.pairwise_append]
        refine ⟨ihp, List.pairwise_singleton _ _, ?_⟩
        intro a ha b hb
        rw [List.mem_singleton] at hb
        subst hb
        have h1 := habsent a ha
        rw [beq_eq_false_iff_ne] at h1
        exact h1
      · intro h
        rw [List.filter_append, List.filter_append]
        by_cases hx : (x.hash == h) = true
        · have hfilx : [x].filter (fun y => y.hash == h) = [x] := by simp [hx]
          rw [hfilx, List.getLast?_concat]
          have hdnil : (dedupByHash l).filter (fun y => y.hash == h) = [] := by
            rw [List.filter_eq_nil_iff]
            intro a ha hah
            have h1 := habsent a ha
            rw [beq_iff_eq] at hah
            rw [hah, ← eq_of_beq hx] at h1
            simp at h1
          rw [hdnil]
          rfl
        · have hfilx : [x].filter (fun y => y.hash == h) = [] := by simp [hx]
          rw [hfilx, List.append_nil, List.append_nil, ihf h]

open List in
theorem insertByTimestampDesc_perm (x : TxItem) (l : List TxItem) :
    insertByTimestampDesc x l ~ x :: l := by
  induction l with
  | nil => rfl
  | cons y ys ih =>
    rw [insertByTimestampDesc]
    by_cases h : x.timestamp ≤ y.timestamp
    · rw [if_pos h]
      calc y :: insertByTimestampDesc x ys
          ~ y :: x :: ys := List.Perm.cons y ih
        _ ~ x :: y :: ys := List.Perm.swap x y ys
    · rw [if_neg h]

open List in
theorem sortByTimestampDesc_perm_aux (l acc : List TxItem) :
    l.foldl (fun a x => insertByTimestampDesc x a) acc ~ l ++ acc := by
  induction l generalizing acc with
  | nil => simp
  | cons x xs ih =>
    rw [List.foldl_cons]
    calc xs.foldl (fun a x => insertByTimestampDesc x a) (insertByTimestampDesc x acc)
        ~ xs ++ insertByTimestampDesc x acc := ih _
      _ ~ xs ++ x :: acc := List.Perm.append_left xs (insertByTimestampDesc_perm x acc)
      _ ~ x :: (xs ++ acc) := List.perm_middle
      _ ~ (x :: xs) ++ acc := by rw [List.cons_append]

open List in
theorem sortByTimestampDesc_perm (l : List TxItem) : sortByTimestampDesc l ~ l := by
  have h := sortByTimestampDesc_perm_aux l []
  rw [List.append_nil] at h
  exact h

theorem insertByTimestampDesc_sorted (x : TxItem) (l : List TxItem)
    (h : l.Pairwise (fun a b => b.timestamp ≤ a.timestamp)) :
    (insertByTimestampDesc x l).Pairwise (fun a b => b.timestamp ≤ a.timestamp) := by
  induction l with
  | nil => exact List.pairwise_singleton _ _
  | cons y ys ih =>
    rw [insertByTimestampDesc]
    rw [List.pairwise_cons] at h
    obtain ⟨hy, hys⟩ := h
    by_cases hle : x.timestamp ≤ y.timestamp
    · rw [if_pos hle]
      rw [List.pairwise_cons]
      refine ⟨?_, ih hys⟩
      intro z hz
      have hz' := (insertByTimestampDesc_perm x ys).mem_iff.mp hz
      rw [List.mem_cons] at hz'
      rcases hz' with hz' | hz'
      · rw [hz']; exact hle
      · exact hy z hz'
    · rw [if_neg hle]
      rw [List.pairwise_cons]
      refine ⟨?_, List.pairwise_cons.mpr ⟨hy, hys⟩⟩
      intro z hz
      rw [List.mem_cons] at hz
      rcases hz with hz | hz
      · rw [hz]; exact le_of_lt (lt_of_not_le hle)
      · exact le_trans (hy z hz) (le_of_lt (lt_of_not_le hle))

theorem sortByTimestampDesc_sorted_aux (l acc : List TxItem)
    (hacc : acc.Pairwise (fun a b => b.timestamp ≤ a.timestamp)) :
    (l.foldl (fun a x => insertByTimestampDesc x a) acc).Pairwise
      (fun a b => b.timestamp ≤ a.timestamp) := by
  induction l generalizing acc with
  | nil => exact hacc
  | cons x xs ih =>
    rw [List.foldl_cons]
    exact ih _ (insertByTimestampDesc_sorted x acc hacc)

theorem sortByTimestampDesc_sorted (l : List TxItem) :
    (sortByTimestampDesc l).Pairwise (fun a b => b.timestamp ≤ a.timestamp) :=
  sortByTimestampDesc_sorted_aux l [] List.Pairwise.nil

theorem filter_insertByTimestampDesc (x : TxItem) (l : List TxItem) (ts : Int)
    (h : l.Pairwise (fun a b => b.timestamp ≤ a.timestamp)) :
    (insertByTimestampDesc x l).filter (fun y => y.timestamp == ts)
      = if x.timestamp == ts then l.filter (fun y => y.timestamp == ts) ++ [x]
        else l.filter (fun y => y.timestamp == ts) := by
  induction l with
  | nil =>
    rw [insertByTimestampDesc]
    by_cases hx : (x.timestamp == ts) = true
    · simp [hx]
    · simp [hx]
  | cons y ys ih =>
    rw [List.pairwise_cons] at h
    obtain ⟨hy, hys⟩ := h
    rw [insertByTimestampDesc]
    by_cases hle : x.timestamp ≤ y.timestamp
    · rw [if_pos hle]
      rw [List.filter_cons, List.filter_cons]
      by_cases hyt : (y.timestamp == ts) = true
      · simp only [hyt, if_true]
        rw [ih hys]
        by_cases hx : (x.timestamp == ts) = true
        · simp [hx]
        · simp [hx]
      · simp only [hyt]
        simp only [Bool.false_eq_true, if_false]
        exact ih hys
    · rw [if_neg hle]
      rw [List.filter_cons]
      by_cases hx : (x.timestamp == ts) = true
      · simp only [hx, if_true]
        have hnil : (y :: ys).filter (fun z => z.timestamp == ts) = [] := by
          rw [List.filter_eq_nil_iff]
          intro z hz
          have hzle : z.timestamp ≤ y.timestamp := by
            rw [List.mem_cons] at hz
            rcases hz with hz | hz
            · rw [hz]
            · exact hy z hz
          have hlt : z.timestamp < x.timestamp :=
            lt_of_le_of_lt hzle (lt_of_not_le hle)
          rw [beq_iff_eq] at hx ⊢
          rw [hx] at hlt
          intro hcon
          rw [hcon] at hlt
          exact lt_irrefl _ hlt
        rw [hnil]
        rfl
      · simp only [hx]
        simp only [Bool.false_eq_true, if_false]

theorem filter_sortByTimestampDesc_aux (l acc : List TxItem) (ts : Int)
    (hacc : acc.Pairwise (fun a b => b.timestamp ≤ a.timestamp)) :
    (l.foldl (fun a x => insertByTimestampDesc x a) acc).filter
        (fun y => y.timestamp == ts)
      = acc.filter (fun y => y.timestamp == ts)
          ++ l.filter (fun y => y.timestamp == ts) := by
  induction l generalizing acc with
  | nil => simp
  | cons x xs ih =>
    rw [List.foldl_cons]
    rw [ih _ (insertByTimestampDesc_sorted x acc hacc)]
    rw [filter_insertByTimestampDesc x acc ts hacc]
    rw [List.filter_cons]
    by_cases hx : (x.timestamp == ts) = true
    · simp only [hx, if_true]
      rw [List.append_assoc]
      rfl
    · simp only [hx]
      simp only [Bool.false_eq_true, if_false]

/-- Stability of the pipeline's sort: within each timestamp class the
output order is exactly the input order (JS `sort` is stable). -/
theorem filter_sortByTimestampDesc (l : List TxItem) (ts : Int) :
    (sortByTimestampDesc l).filter (fun y => y.timestamp == ts)
      = l.filter (fun y => y.timestamp == ts) := by
  have h := filter_sortByTimestampDesc_aux l [] ts List.Pairwise.nil
  rw [sortByTimestampDesc, h]
  rfl

theorem runTryBlock_ok_shape (env : Env) (chainId : Nat) (address : String)
    (pageKey : Option String) (q : Rat) (cacheKey : String)
    (inR outR : FetchRequest) (r : TxHistoryResponse)
    (h : (runTryBlock env chainId address pageKey q cacheKey inR outR).1 = .ok r) :
    ∃ merged : List TxItem,
      r.items = (sortByTimestampDesc (dedupByHash merged)).take
        (jsSliceEnd (sortByTimestampDesc (dedupByHash merged)).length q) := by
  rw [runTryBlock] at h
  split at h
  · simp at h
  · simp at h
  · simp at h
  · simp at h
  · simp at h
  · split at h
    · simp at h
    · repeat' split at h
      all_goals
        first
          | (exact ⟨_, congrArg TxHistoryResponse.items (Except.ok.inj h).symm⟩)
          | simp at h

theorem jsSliceEnd_le (len : Nat) (q : Rat) (hq : 0 ≤ q) :
    ((jsSliceEnd len q : Nat) : Rat) ≤ q := by
  rw [jsSliceEnd, ratTrunc, if_neg (not_lt.mpr hq)]
  rw [if_neg (not_lt.mpr (Int.natCast_nonneg _))]
  rw [Int.toNat_natCast]
  have h1 : ((min len (q.num.toNat / q.den) : Nat) : Rat)
      ≤ ((q.num.toNat / q.den : Nat) : Rat) := by
    exact_mod_cast min_le_right len (q.num.toNat / q.den)
  refine le_trans h1 (le_trans Nat.cast_div_le ?_)
  have h2 : ((q.num.toNat : Nat) : Rat) = ((q.num : Int) : Rat) := by
    rw [← Int.cast_natCast, Int.toNat_of_nonneg (Rat.num_nonneg.mpr hq)]
  rw [h2, Rat.num_div_den]

/-! ## Claim C7 — page invariants: dedup, order, size -/

/-- Claim C7: every page computed by the pipeline (any successful run that
did not short-circuit on a cached entry) has items unique by hash, ordered
by timestamp descending, and no more items than the clamped page size; the
dedup step keeps exactly the last-seen occurrence of each hash (in
first-occurrence position, per JS `Map` semantics); and the sort is stable:
within each timestamp class the output order equals the merged input
order. -/
theorem claim_C7 :
    (∀ (env : Env) (chainId : Nat) (address : String) (pageKey : Option String)
        (pageSize : Option Rat) (fromBlock : Option String)
        (categories : Option (List String)) (page : TxHistoryResponse) (q : Rat),
      validatePageSize pageSize env.config.txHistoryMaxPageSize = .ok q →
      0 ≤ q →
      env.cacheGet (cacheKeyOf chainId address pageKey) = none →
      (getTransactionHistory env chainId address pageKey pageSize fromBlock
        categories).result = .ok page →
      page.items.Pairwise (fun a b => a.hash ≠ b.hash)
        ∧ page.items.Pairwise (fun a b => b.timestamp ≤ a.timestamp)
        ∧ ((page.items.length : Nat) : Rat) ≤ q)
      ∧ (∀ (items : List TxItem) (h : String),
        (dedupByHash items).filter (fun y => y.hash == h)
          = ((items.filter (fun y => y.hash == h)).getLast?).toList)
      ∧ (∀ (l : List TxItem) (ts : Int),
        (sortByTimestampDesc l).filter (fun y => y.timestamp == ts)
          = l.filter (fun y => y.timestamp == ts)) := by
  refine ⟨?_, fun items h => (dedupByHash_pairwise_and_filter items).2 h,
    filter_sortByTimestampDesc⟩
  intro env chainId address pageKey pageSize fromBlock categories page q hq hqpos hc hres
  rw [getTransactionHistory] at hres
  simp only [hq, hc] at hres
  split at hres
  · simp at hres
  · split at hres
    · simp at hres
    · split at hres
      · simp at hres
      · split at hres
        · rename_i r heqr
          have hpage : r = page := Except.ok.inj hres
          rw [← hpage]
          obtain ⟨merged, hitems⟩ :=
            runTryBlock_ok_shape env chainId address pageKey q
              (cacheKeyOf chainId address pageKey) _ _ r heqr
          have hperm := sortByTimestampDesc_perm (dedupByHash merged)
          have hd := (dedupByHash_pairwise_and_filter merged).1
          have hsortp : (sortByTimestampDesc (dedupByHash merged)).Pairwise
              (fun a b => a.hash ≠ b.hash) :=
            (List.Perm.pairwise_iff (fun hab => hab.symm) hperm).mpr hd
          refine ⟨?_, ?_, ?_⟩
          · rw [hitems]
            exact hsortp.sublist (List.take_sublist _ _)
          · rw [hitems]
            exact (sortByTimestampDesc_sorted (dedupByHash merged)).sublist
              (List.take_sublist _ _)
          · rw [hitems]
            refine le_trans ?_ (jsSliceEnd_le
              (sortByTimestampDesc (dedupByHash merged)).length q hqpos)
            exact_mod_cast Nat.cast_le.mpr (List.length_take_le _ _)
        · simp at hres
        · simp at hres

/-- Claim C7, witness: the invariants hold on the concrete successful run
of the C6 environment (outbound failing, inbound succeeding with an empty
batch). -/
theorem claim_C7_witness :
    (getTransactionHistory env6 1 addrA none none none none).result
        = .ok (computedPage [] (some "inCursor6") (min 100 (effectiveMaxPageSize none)))
      ∧ (computedPage [] (some "inCursor6")
          (min 100 (effectiveMaxPageSize none))).items.Pairwise
            (fun a b => a.hash ≠ b.hash) :=
  ⟨rfl,
    (claim_C7.1 env6 1 addrA none none none none
      (computedPage [] (some "inCursor6") (min 100 (effectiveMaxPageSize none)))
      (min 100 (effectiveMaxPageSize none)) rfl
      (by rw [effectiveMaxPageSize]; norm_num) rfl rfl).1⟩
